import Mathlib

set_option maxRecDepth 8000

/-!
A shallow embedding of the GRBL emulator core (grbl_emu.py) from the
Sim_3018_Pro_Ultra repository, together with theorems settling the frozen
claims about its specification.

Modelling conventions:
* Python floats are embedded as exact rationals. Decimal literals in the
  source become the corresponding rational; the single genuinely
  transcendental quantity of the motion loop, the euclidean distance
  sqrt(dx*dx + dy*dy + dz*dz), is passed to the tick as an explicit
  argument, and execution traces constrain it to approximate the true
  square root (see sqrtOkB below).
* The emitter writes of the source (os.write of literal strings) are
  embedded as an inductive Frame type, one constructor per distinct frame,
  appended to an out list.
* The dynamically created attributes motion_queue and motion_mode of the
  source are ordinary fields with their de-facto initial values (empty
  queue, mode 0).
* The trigonometric arc expander _generate_arc is float-transcendental;
  it enters the embedding as an explicit function parameter standing for
  the list of waypoints it appends to the motion queue. Everything the
  claims need about it is either independent of that list or stated with
  the (source-true) hypothesis that the list is non-empty.
-/

namespace GrblEmu

/-- Supervisor state. The source stores strings; these constructors are the
five strings the source ever assigns, plus Jog, which the specification
names but the source never assigns (included so that statements about the
Jog state can be written and refuted). -/
inductive GState where
  | Idle
  | Run
  | Hold
  | Home
  | Alarm
  | Jog
deriving DecidableEq, Repr

/-- A coordinate triple, as the 3-element float lists of the source. -/
structure Vec3 where
  x : ℚ
  y : ℚ
  z : ℚ
deriving DecidableEq, Repr

def Vec3.zero : Vec3 := ⟨0, 0, 0⟩

/-- Axis indexing, list[i] of the source. -/
def Vec3.get (v : Vec3) : Fin 3 → ℚ
  | 0 => v.x
  | 1 => v.y
  | 2 => v.z

/-- Outbound frames, one constructor per distinct write of the source:
ok is "ok", error n is "error:n", alarm1 is the "ALARM:1" line together
with its "[MSG:Hard limit triggered ...]" block (sent by one write),
banner is "Grbl 1.1f [dollar for help]", status carries the raw values
formatted into the status report, settingLine k v is "k=v", verBlock is
the "[VER:...]" and "[OPT:...]" pair, gcBlock is the "[GC:...]" line. -/
inductive Frame where
  | ok
  | error (n : ℕ)
  | alarm1
  | banner
  | status (st : GState) (mpos wco : Vec3) (feed : ℚ)
  | settingLine (k : String) (v : ℚ)
  | verBlock
  | gcBlock
deriving DecidableEq, Repr

/-- The settings dict of the source, in its literal order. -/
def initSettings : List (String × ℚ) :=
  [("$0", 10), ("$1", 25), ("$2", 0), ("$3", 0), ("$4", 0), ("$5", 0), ("$6", 0),
   ("$10", 1), ("$11", 1/100), ("$12", 1/500), ("$13", 0), ("$20", 0), ("$21", 0),
   ("$22", 1), ("$23", 0), ("$24", 25), ("$25", 500), ("$26", 250), ("$27", 1),
   ("$30", 1000), ("$31", 0), ("$32", 0),
   ("$100", 800), ("$101", 800), ("$102", 800),
   ("$110", 2000), ("$111", 2000), ("$112", 2000),
   ("$120", 20), ("$121", 20), ("$122", 20),
   ("$130", 300), ("$131", 180), ("$132", 45)]

/-- settings[k] of the source. The source would raise KeyError on a missing
key; the only keys ever looked up are present, so the 0 default is inert. -/
def lookupSetting (st : List (String × ℚ)) (k : String) : ℚ :=
  match st.find? (fun kv => kv.1 == k) with
  | some kv => kv.2
  | none => 0

/-- The controller state: every instance attribute of GrblEmulator that the
core logic reads or writes, plus the line accumulator of _serial_loop and
the outbound frame list. -/
structure EmuState where
  state : GState
  mpos : Vec3
  wpos : Vec3
  target_mpos : Vec3
  feed_rate : ℚ
  home_pos : Vec3
  homing : Bool
  is_relative : Bool
  wco : Vec3
  settings : List (String × ℚ)
  motion_mode : ℤ
  motion_queue : List Vec3
  buffer : List Char
  out : List Frame
deriving DecidableEq, Repr

/-- The state right after __init__ (with the de-facto initial values of the
dynamically created motion_mode and motion_queue). -/
def init : EmuState where
  state := .Idle
  mpos := Vec3.zero
  wpos := Vec3.zero
  target_mpos := Vec3.zero
  feed_rate := 1000
  home_pos := ⟨300, 180, 45⟩
  homing := false
  is_relative := false
  wco := Vec3.zero
  settings := initSettings
  motion_mode := 0
  motion_queue := []
  buffer := []
  out := []

/-! ### Tokeniser

_parse_gcode tokenises with re.findall applied to the uppercased block,
with one match group for an uppercase letter and one for a signed decimal
number with optional fractional part. The functions below reproduce the
behaviour of that scan: at each position, if the character is an uppercase
letter immediately followed by a string matched by the number pattern
(maximal, with the backtracking semantics of the regex), a token is
emitted and the match consumed; otherwise the scan advances one character.
-/

/-- The character class of the first regex group after upper-casing. -/
def isUpperAZ (c : Char) : Bool := 'A' ≤ c && c ≤ 'Z'

/-- Numeric value of a digit run. -/
def digitsToNat (ds : List Char) : ℕ :=
  ds.foldl (fun n c => 10 * n + (c.toNat - '0'.toNat)) 0

/-- Value of a decimal literal: integer digits d1, fraction digits d2,
with sign. This is the float(v) of the source, made exact. -/
def decValue (neg : Bool) (d1 d2 : List Char) : ℚ :=
  let mag : ℚ := (digitsToNat d1 : ℚ) + (digitsToNat d2 : ℚ) / (10 ^ d2.length)
  if neg then -mag else mag

/-- Match the number pattern of the source regex at the head of cs:
an optional sign, then digits, an optional dot, and at least one digit
overall, maximal with backtracking (a trailing dot with no digits after it
is left unconsumed). Returns the value and the remaining characters. -/
def matchNum (cs : List Char) : Option (ℚ × List Char) :=
  let neg : Bool := cs.head? = some '-'
  let cs1 := if cs.head? = some '-' ∨ cs.head? = some '+' then cs.tail else cs
  let d1 := cs1.takeWhile Char.isDigit
  let cs2 := cs1.dropWhile Char.isDigit
  if cs2.head? = some '.' then
    let d2 := cs2.tail.takeWhile Char.isDigit
    if d2 ≠ [] then some (decValue neg d1 d2, cs2.tail.dropWhile Char.isDigit)
    else if d1 ≠ [] then some (decValue neg d1 [], cs2)
    else none
  else if d1 ≠ [] then some (decValue neg d1 [], cs2) else none

/-- The re.findall scan of _parse_gcode: left to right, emit a
(letter, value) pair wherever an uppercase letter is immediately followed
by a number match, consuming the match; otherwise step one character.
Structural recursion on a fuel counter so that the definition reduces in
the kernel; every step consumes at least one character (matchNum_length),
so fuel equal to the input length never runs out. -/
def tokenizeAux : ℕ → List Char → List (Char × ℚ)
  | 0, _ => []
  | _, [] => []
  | fuel + 1, c :: rest =>
    if isUpperAZ c then
      match matchNum rest with
      | some (v, rest2) => (c, v) :: tokenizeAux fuel rest2
      | none => tokenizeAux fuel rest
    else tokenizeAux fuel rest

def tokenize (cs : List Char) : List (Char × ℚ) := tokenizeAux cs.length cs

/-! ### Comment stripping and line trimming -/

/-- The re.sub removing parenthesised runs: from each opening parenthesis
to the nearest closing one; an opening parenthesis with no later closing
one is kept (the regex cannot match there). Fuel-structured like
tokenizeAux; every step consumes at least one character. -/
def stripCommentsAux : ℕ → List Char → List Char
  | 0, cs => cs
  | _, [] => []
  | fuel + 1, c :: rest =>
    if c = '(' then
      match rest.dropWhile (fun d => !(d = ')')) with
      | [] => c :: stripCommentsAux fuel rest
      | _ :: tailRest => stripCommentsAux fuel tailRest
    else c :: stripCommentsAux fuel rest

def stripComments (cs : List Char) : List Char := stripCommentsAux cs.length cs

/-- The whitespace set of the python str.strip default. -/
def isPySpace (c : Char) : Bool :=
  c = ' ' || c = '\t' || c = '\n' || c = '\r' || c = '\x0b' || c = '\x0c'

/-- buffer.strip() of the source. -/
def pyStrip (cs : List Char) : List Char :=
  ((cs.dropWhile isPySpace).reverse.dropWhile isPySpace).reverse

/-- int(float(v)) of the source: truncation toward zero. -/
def truncQ (q : ℚ) : ℤ := q.num.tdiv q.den

/-! ### The modal interpreter (_parse_gcode) -/

/-- gcode.upper() of the source (the inputs of interest are ASCII, where
Char.toUpper agrees with the python upper). -/
def pyUpper (cs : List Char) : List Char := cs.map Char.toUpper

/-- The token list of a block: comments stripped, then the uppercased
remainder scanned by the findall regex. -/
def blockTokens (g : List Char) : List (Char × ℚ) :=
  tokenize (pyUpper (stripComments g))

/-- A G token whose float value is exactly 10 or 92 (the work-offset
short-circuit test of the source). -/
def isOffsetTok (t : Char × ℚ) : Bool := t.1 = 'G' && (t.2 = 10 || t.2 = 92)

/-- One iteration of the inner wco-assignment loop of the G10/G92 branch. -/
def applyWcoTok (mpos : Vec3) (w : Vec3) (t : Char × ℚ) : Vec3 :=
  if t.1 = 'X' then { w with x := mpos.x - t.2 }
  else if t.1 = 'Y' then { w with y := mpos.y - t.2 }
  else if t.1 = 'Z' then { w with z := mpos.z - t.2 }
  else w

/-- The motion-mode latch loop: each G token whose int value is 0..3
overwrites the mode. -/
def foldMotionMode (tokens : List (Char × ℚ)) (m0 : ℤ) : ℤ :=
  tokens.foldl (fun m t =>
    if t.1 = 'G' && (truncQ t.2 = 0 || truncQ t.2 = 1 || truncQ t.2 = 2 || truncQ t.2 = 3)
    then truncQ t.2 else m) m0

/-- The distance-mode loop: G90 selects absolute (false), G91 relative
(true); the last occurrence wins. -/
def foldDistMode (tokens : List (Char × ℚ)) (b0 : Bool) : Bool :=
  tokens.foldl (fun b t =>
    if t.1 = 'G' && t.2 = 90 then false
    else if t.1 = 'G' && t.2 = 91 then true
    else b) b0

/-- Accumulator of the parameter-intake loop: the local target triple, the
arc offsets dict (I, J, K), the feed rate, and the supervisor state (M0
writes Hold during the loop). -/
structure ParamAcc where
  target : Vec3
  offs : Vec3
  feed : ℚ
  st : GState
deriving DecidableEq, Repr

/-- One iteration of the parameter-intake loop. tm and wco are the planner
target and work offset read by the source inside the loop (both fixed for
the whole loop), rel the distance mode of this block. -/
def paramStep (tm wco : Vec3) (rel : Bool) (a : ParamAcc) (t : Char × ℚ) : ParamAcc :=
  if t.1 = 'F' then { a with feed := max t.2 (1/10) }
  else if t.1 = 'X' then
    { a with target := { a.target with x := if rel then tm.x + t.2 else t.2 + wco.x } }
  else if t.1 = 'Y' then
    { a with target := { a.target with y := if rel then tm.y + t.2 else t.2 + wco.y } }
  else if t.1 = 'Z' then
    { a with target := { a.target with z := if rel then tm.z + t.2 else t.2 + wco.z } }
  else if t.1 = 'I' then { a with offs := { a.offs with x := t.2 } }
  else if t.1 = 'J' then { a with offs := { a.offs with y := t.2 } }
  else if t.1 = 'K' then { a with offs := { a.offs with z := t.2 } }
  else if t.1 = 'M' then (if truncQ t.2 = 0 then { a with st := .Hold } else a)
  else a

/-- An axis word. The is_move flag of the source is set exactly by the X,
Y and Z branches of the loop, so its final value is this any-test. -/
def isAxisTok (t : Char × ℚ) : Bool := t.1 = 'X' || t.1 = 'Y' || t.1 = 'Z'

/-- The _generate_arc effect, abstracted: given the start point (the
planner target before the block), the block endpoint, the offsets triple
and the direction flag, the list of waypoints the arc expander appends to
the motion queue. The source computes these with float trigonometry
(atan2, cos, sin, hypot), which has no exact rational embedding; every
theorem below either does not depend on this list or assumes only that it
is non-empty, which holds in the source (the small-radius branch appends
one waypoint, the segment loop at least two). -/
def ArcFn : Type := Vec3 → Vec3 → Vec3 → Bool → List Vec3

/-- An arc expander instance used to evaluate concrete traces that contain
no G2/G3 block (the abstract arc function is then never applied). -/
def arcStub : ArcFn := fun _ tgt _ _ => [tgt]

/-- _parse_gcode. Faithful to the source control flow: the G10/G92
short-circuit, then the motion-mode latch, the distance-mode latch (the
persistent mode is only written when is_jog is false), the parameter
intake, and the motion emission, which appends to the queue (delegating to
the arc expander for modes 2 and 3, which also sets the planner target to
the endpoint before it is immediately overwritten), then sets the planner
target to the queue head and the state to Run. The headD default is
unreachable in the source: the queue is non-empty after any append. -/
def parse_gcode (arc : ArcFn) (g : List Char) (is_jog : Bool) (s : EmuState) : EmuState :=
  let tokens := blockTokens g
  if tokens.any isOffsetTok then
    { s with wco := tokens.foldl (applyWcoTok s.mpos) s.wco }
  else
    let mm := foldMotionMode tokens s.motion_mode
    let is_rel_block := foldDistMode tokens s.is_relative
    let rel2 := if is_jog then s.is_relative else foldDistMode tokens s.is_relative
    let a := tokens.foldl (paramStep s.target_mpos s.wco is_rel_block)
      { target := s.target_mpos, offs := Vec3.zero, feed := s.feed_rate, st := s.state }
    let is_move := tokens.any isAxisTok
    let s1 := { s with motion_mode := mm, is_relative := rel2, feed_rate := a.feed,
                       state := a.st }
    if is_move then
      let segs := if mm == 2 || mm == 3 then arc s.target_mpos a.target a.offs (mm == 2)
                  else [a.target]
      let q := s.motion_queue ++ segs
      { s1 with motion_queue := q, target_mpos := q.headD a.target, state := .Run }
    else s1

/-! ### System commands (_handle_command, _start_homing, _send_status) -/

/-- The homing target captured by _start_homing. -/
def settingsTriple (st : List (String × ℚ)) : Vec3 :=
  ⟨lookupSetting st "$130", lookupSetting st "$131", lookupSetting st "$132"⟩

/-- The synchronous part of _start_homing: state, homing flag and captured
home position. The spawned homing thread is modelled by the homing events
below. -/
def startHoming (s : EmuState) : EmuState :=
  { s with state := .Home, homing := true, home_pos := settingsTriple s.settings }

/-- The Alarm-state command whitelist of _handle_command: exact membership
in the tuple, or a prefix test against the two dollar prefixes (the python
startswith is rendered as a take-and-compare). -/
def allowedInAlarm (cmd : List Char) : Bool :=
  decide (cmd = ['$', 'X']) || decide (cmd = ['$', 'H']) || decide (cmd = ['$', 'H', 'A'])
    || decide (cmd = ['$', '$']) || decide (cmd = ['?']) || decide (cmd = ['\x18'])
    || decide (cmd.take 2 = ['$', 'I']) || decide (cmd.take 2 = ['$', 'G'])

/-- _handle_command on an already stripped line (as its character list).
The line is uppercased first; the python startswith tests are rendered as
take-and-compare on the character list. -/
def handle_command (arc : ArcFn) (cmd0 : List Char) (s : EmuState) : EmuState :=
  let cmd := pyUpper cmd0
  if s.state = .Alarm ∧ allowedInAlarm cmd = false then
    { s with out := s.out ++ [Frame.error 9] }
  else if cmd = ['$', '$'] then
    { s with out := s.out ++ s.settings.map (fun kv => Frame.settingLine kv.1 kv.2)
                          ++ [Frame.ok] }
  else if cmd.take 1 = ['$'] then
    if cmd = ['$', 'H'] ∨ cmd = ['$', 'H', 'A'] then
      let s1 := startHoming s
      { s1 with out := s1.out ++ [Frame.ok] }
    else if cmd.take 3 = ['$', 'J', '='] then
      let s1 := parse_gcode arc (cmd.drop 3) true s
      { s1 with out := s1.out ++ [Frame.ok] }
    else if cmd = ['$', 'I'] then { s with out := s.out ++ [Frame.verBlock, Frame.ok] }
    else if cmd = ['$', 'X'] then { s with state := .Idle, out := s.out ++ [Frame.ok] }
    else if cmd = ['$', 'G'] then { s with out := s.out ++ [Frame.gcBlock, Frame.ok] }
    else { s with out := s.out ++ [Frame.ok] }
  else
    let s1 := parse_gcode arc cmd false s
    { s1 with out := s1.out ++ [Frame.ok] }

/-- _send_status: one status frame with the values read at call time. -/
def sendStatus (s : EmuState) : EmuState :=
  { s with out := s.out ++ [Frame.status s.state s.mpos s.wco s.feed_rate] }

/-- One byte consumed by _serial_loop. -/
def rxByte (arc : ArcFn) (c : Char) (s : EmuState) : EmuState :=
  if c = '?' then sendStatus s
  else if c = '~' then
    (if s.state = .Hold then
      (if s.motion_queue ≠ [] then { s with state := .Run } else { s with state := .Idle })
     else s)
  else if c = '\x18' then { s with state := .Alarm, out := s.out ++ [Frame.banner] }
  else if c = '\r' ∨ c = '\n' then
    (if pyStrip s.buffer ≠ [] then
      { handle_command arc (pyStrip s.buffer) s with buffer := [] }
     else { s with buffer := [] })
  else { s with buffer := s.buffer ++ [c] }

/-! ### The motion executor (_motion_loop), one tick

The loop computes dist = sqrt(dx*dx + dy*dy + dz*dz) in floating point;
the tick takes that square root as the explicit argument sqrtD.
Execution traces (evOkB) constrain it to approximate the exact square
root of tickDist2. -/

/-- current_target of the tick. -/
def tickTarget (s : EmuState) : Vec3 :=
  if s.state = .Run ∧ s.motion_queue ≠ [] then s.motion_queue.headD s.target_mpos
  else s.target_mpos

/-- dx*dx + dy*dy + dz*dz of the tick. -/
def tickDist2 (s : EmuState) : ℚ :=
  let t := tickTarget s
  (t.x - s.mpos.x) * (t.x - s.mpos.x) + (t.y - s.mpos.y) * (t.y - s.mpos.y)
    + (t.z - s.mpos.z) * (t.z - s.mpos.z)

/-- Speed: 500 in Home state, otherwise the feed rate floored at 100. -/
def tickSpeed (s : EmuState) : ℚ := if s.state = .Home then 500 else max s.feed_rate 100

/-- step = (speed / 60) * dt. -/
def tickStep (s : EmuState) (dt : ℚ) : ℚ := tickSpeed s / 60 * dt

/-- next_pos before soft-limit clamping: the full target when the step
covers the distance, else a move of length step along the delta vector. -/
def tickNext0 (s : EmuState) (dt sqrtD : ℚ) : Vec3 :=
  let ct := tickTarget s
  if tickStep s dt ≥ sqrtD then ct
  else ⟨s.mpos.x + (ct.x - s.mpos.x) / sqrtD * tickStep s dt,
        s.mpos.y + (ct.y - s.mpos.y) / sqrtD * tickStep s dt,
        s.mpos.z + (ct.z - s.mpos.z) / sqrtD * tickStep s dt⟩

/-- The per-axis out-of-range test of the clamping loop. -/
def axisOut (v m : ℚ) : Bool := decide (v < 0) || decide (v > m)

/-- max(0.0, min(next_pos[i], max_pos[i])). -/
def clampAxis (v m : ℚ) : ℚ := max 0 (min v m)

/-- The clamping loop over the three axes: each out-of-range axis is
clamped, in-range axes are left alone. -/
def clampVec (v m : Vec3) : Vec3 :=
  ⟨if axisOut v.x m.x then clampAxis v.x m.x else v.x,
   if axisOut v.y m.y then clampAxis v.y m.y else v.y,
   if axisOut v.z m.z then clampAxis v.z m.z else v.z⟩

/-- hit_limit: some axis was out of range. -/
def hitLimit (v m : Vec3) : Bool := axisOut v.x m.x || axisOut v.y m.y || axisOut v.z m.z

/-- The waypoint-reached bookkeeping shared by the two completion paths of
the tick: pop the queue head in Run state, then go Idle when not homing
and the queue is empty. -/
def popAndMaybeIdle (s : EmuState) : EmuState :=
  let q := if s.state = .Run ∧ s.motion_queue ≠ [] then s.motion_queue.tail
           else s.motion_queue
  { s with motion_queue := q,
           state := if s.homing = false ∧ q = [] then .Idle else s.state }

/-- One iteration of the _motion_loop body (without the sleep), with dt
the measured elapsed time and sqrtD the float square root of tickDist2. -/
def motion_tick (s : EmuState) (dt sqrtD : ℚ) : EmuState :=
  if s.state = .Run ∨ s.state = .Home then
    if sqrtD > 1/1000 then
      let m := settingsTriple s.settings
      let next0 := tickNext0 s dt sqrtD
      let s1 := { s with mpos := clampVec next0 m }
      if hitLimit next0 m = true ∧ s.homing = false then
        { s1 with target_mpos := s1.mpos, motion_queue := [], state := .Alarm,
                  out := s1.out ++ [Frame.alarm1] }
      else if tickStep s dt ≥ sqrtD then popAndMaybeIdle s1
      else s1
    else popAndMaybeIdle s
  else s

/-! ### The homing thread (run_homing), as events

The thread body is a straight-line sequence of target writes, position
snaps and polling waits. Each mutation becomes one event; the polling
waits become entry guards of the following event (the loops exit, with the
homing flag held true, exactly when the position is within 0.1 of the
captured home on the polled axes). -/

/-- Phases 1 and 3: seek Z to home.z (target write only). -/
def homeSeekZ (s : EmuState) : EmuState :=
  { s with target_mpos := { s.target_mpos with z := s.home_pos.z } }

/-- Phase 2: back Z off to home.z - 2 and snap mpos.z there. -/
def homeBackoffZ (s : EmuState) : EmuState :=
  { s with target_mpos := { s.target_mpos with z := s.home_pos.z - 2 },
           mpos := { s.mpos with z := s.home_pos.z - 2 } }

/-- Phases 4 and the re-seek of phase 5: seek X and Y to home. -/
def homeSeekXY (s : EmuState) : EmuState :=
  { s with target_mpos := { s.target_mpos with x := s.home_pos.x, y := s.home_pos.y } }

/-- Phase 5 back-off: targets to home - 2 on X and Y, snap mpos there. -/
def homeBackoffXY (s : EmuState) : EmuState :=
  { s with target_mpos := { s.target_mpos with x := s.home_pos.x - 2,
                                               y := s.home_pos.y - 2 },
           mpos := { s.mpos with x := s.home_pos.x - 2, y := s.home_pos.y - 2 } }

/-- The completion block: mpos snaps to home, wpos (not wco) is zeroed,
the planner target snaps to home, the queue is cleared, the homing flag
drops and the state becomes Idle. -/
def homeFinish (s : EmuState) : EmuState :=
  { s with mpos := s.home_pos, wpos := Vec3.zero, target_mpos := s.home_pos,
           motion_queue := [], homing := false, state := .Idle }

/-! ### Events, traces and reachability -/

/-- One atomic step of the system: a byte consumed by the serial thread, a
motion-loop tick, or one mutation of the homing thread. -/
inductive Ev where
  | rx (c : Char)
  | tick (dt sqrtD : ℚ)
  | hSeekZ
  | hBackZ
  | hSeekXY
  | hBackXY
  | hFinish
deriving DecidableEq, Repr

def applyEv (arc : ArcFn) (e : Ev) (s : EmuState) : EmuState :=
  match e with
  | .rx c => rxByte arc c s
  | .tick dt sqrtD => motion_tick s dt sqrtD
  | .hSeekZ => homeSeekZ s
  | .hBackZ => homeBackoffZ s
  | .hSeekXY => homeSeekXY s
  | .hBackXY => homeBackoffXY s
  | .hFinish => homeFinish s

/-- The exit condition of the Z polling waits. -/
def nearZ (s : EmuState) : Bool := decide (|s.mpos.z - s.home_pos.z| ≤ 1/10)

/-- The exit condition of the X/Y polling waits. -/
def nearXY (s : EmuState) : Bool :=
  decide (|s.mpos.x - s.home_pos.x| ≤ 1/10) && decide (|s.mpos.y - s.home_pos.y| ≤ 1/10)

/-- Admissible square-root arguments for a tick: non-negative, with square
within relative error 2^-20 of the exact squared distance (a bound the
float sqrt of the source satisfies by a wide margin). -/
def sqrtOkB (s : EmuState) (sqrtD : ℚ) : Bool :=
  decide (0 ≤ sqrtD) && decide (|sqrtD * sqrtD - tickDist2 s| ≤ tickDist2 s / 2 ^ 20)

/-- Guard under which an event can fire in a state. The homing events
require the homing flag and, where the thread sits in a polling wait
before the mutation, the exit condition of that wait. This is an
over-approximation of the exact thread sequencing (no phase counter), so
every real interleaving is included. -/
def evOkB (s : EmuState) (e : Ev) : Bool :=
  match e with
  | .rx _ => true
  | .tick dt sqrtD => decide (0 ≤ dt) && sqrtOkB s sqrtD
  | .hSeekZ => s.homing
  | .hBackZ => s.homing && nearZ s
  | .hSeekXY => s.homing && nearZ s
  | .hBackXY => s.homing && nearXY s
  | .hFinish => s.homing && nearXY s

inductive Step (arc : ArcFn) : EmuState → EmuState → Prop where
  | mk (s : EmuState) (e : Ev) (h : evOkB s e = true) : Step arc s (applyEv arc e s)

/-- States reachable from the initial state by admissible events. -/
def Reachable (arc : ArcFn) (s : EmuState) : Prop :=
  Relation.ReflTransGen (Step arc) init s

def runEvs (arc : ArcFn) (evs : List Ev) (s : EmuState) : EmuState :=
  evs.foldl (fun st e => applyEv arc e st) s

/-- Decidable check that a concrete event list is admissible stepwise. -/
def validFromB (arc : ArcFn) (s : EmuState) : List Ev → Bool
  | [] => true
  | e :: es => evOkB s e && validFromB arc (applyEv arc e s) es

def runBytes (arc : ArcFn) (cs : List Char) (s : EmuState) : EmuState :=
  cs.foldl (fun st c => rxByte arc c st) s

/-! ### Invariant vocabulary and concrete demonstration inputs -/

/-- The settings store is the initial dict and the captured home position
is its max-travel triple: established initially and preserved by every
event, since no command path ever writes the settings. -/
def SettingsHome (s : EmuState) : Prop :=
  s.settings = initSettings ∧ s.home_pos = (⟨300, 180, 45⟩ : Vec3)

/-- Every axis of mpos lies between 0 and the max-travel setting of that
axis. -/
def inBounds (s : EmuState) : Prop :=
  ∀ i : Fin 3, 0 ≤ s.mpos.get i ∧ s.mpos.get i ≤ (settingsTriple s.settings).get i

/-- Bytes of a string as serial-input events. -/
def rxs (str : String) : List Ev := str.data.map Ev.rx

/-- A complete homing run started from a non-zero work offset: drive X
then Y to their max travel, set a work offset with G92, issue the homing
command, then step the homing thread through all five phases with the
motion ticks its polling waits require. The square-root arguments are 300,
180, 45, 2 (exact) and a rational approximation of sqrt 8 for the final
2,2,0 re-seek leg. -/
def c1Trace : List Ev :=
  rxs "G0X300\r" ++ [Ev.tick 60 300] ++
  rxs "G0Y180\r" ++ [Ev.tick 60 180] ++
  rxs "G92X5\r" ++ rxs "$H\r" ++
  [Ev.hSeekZ, Ev.tick 60 45, Ev.hBackZ, Ev.hSeekZ, Ev.tick 1 2,
   Ev.hSeekXY, Ev.hBackXY, Ev.hSeekXY, Ev.tick 60 (2828427 / 1000000), Ev.hFinish]

/-- A running state about to step beyond the X soft limit: one queued
waypoint at x = 500 with the default 300 mm X travel. -/
def c4State : EmuState :=
  { init with state := .Run, motion_queue := [⟨500, 0, 0⟩], target_mpos := ⟨500, 0, 0⟩ }

/-- A running state with one queued waypoint inside the travel range. -/
def c5State : EmuState :=
  { init with state := .Run, motion_queue := [⟨1, 0, 0⟩], target_mpos := ⟨1, 0, 0⟩ }

/-! ### Supporting lemmas -/

theorem matchNum_sublist {cs rest : List Char} {v : ℚ}
    (h : matchNum cs = some (v, rest)) : rest.Sublist cs := by
  have t1 : (List.tail cs).Sublist cs := List.tail_sublist cs
  simp only [matchNum] at h
  repeat' split at h
  all_goals
    first
      | exact Option.noConfusion h
      | (simp only [Option.some.injEq, Prod.mk.injEq] at h
         first
           | exact h.2 ▸ ((List.dropWhile_sublist _).trans ((List.tail_sublist _).trans
               ((List.dropWhile_sublist _).trans t1)))
           | exact h.2 ▸ ((List.dropWhile_sublist _).trans ((List.tail_sublist _).trans
               (List.dropWhile_sublist _)))
           | exact h.2 ▸ ((List.dropWhile_sublist _).trans t1)
           | exact h.2 ▸ (List.dropWhile_sublist _))

/-- Every number match consumes at least the matched characters: the scan
of tokenizeAux therefore never needs more fuel than the input length. -/
theorem matchNum_length {cs rest : List Char} {v : ℚ}
    (h : matchNum cs = some (v, rest)) : rest.length ≤ cs.length :=
  (matchNum_sublist h).length_le

theorem reachable_runEvs {arc : ArcFn} {s : EmuState} (evs : List Ev)
    (hs : Reachable arc s) (hv : validFromB arc s evs = true) :
    Reachable arc (runEvs arc evs s) := by
  induction evs generalizing s with
  | nil => exact hs
  | cons e es ih =>
    simp only [validFromB, Bool.and_eq_true] at hv
    exact ih (hs.tail (Step.mk s e hv.1)) hv.2

theorem reachable_runBytes {arc : ArcFn} {s : EmuState} (cs : List Char)
    (hs : Reachable arc s) : Reachable arc (runBytes arc cs s) := by
  induction cs generalizing s with
  | nil => exact hs
  | cons c cs2 ih => exact ih (hs.tail (Step.mk s (.rx c) rfl))

theorem settingsTriple_init : settingsTriple initSettings = ⟨300, 180, 45⟩ := by
  with_unfolding_all decide

theorem parse_gcode_mpos (arc : ArcFn) (g : List Char) (j : Bool) (s : EmuState) :
    (parse_gcode arc g j s).mpos = s.mpos := by
  simp only [parse_gcode]
  repeat' split
  all_goals rfl

theorem parse_gcode_settings (arc : ArcFn) (g : List Char) (j : Bool) (s : EmuState) :
    (parse_gcode arc g j s).settings = s.settings := by
  simp only [parse_gcode]
  repeat' split
  all_goals rfl

theorem parse_gcode_home_pos (arc : ArcFn) (g : List Char) (j : Bool) (s : EmuState) :
    (parse_gcode arc g j s).home_pos = s.home_pos := by
  simp only [parse_gcode]
  repeat' split
  all_goals rfl

theorem parse_gcode_out (arc : ArcFn) (g : List Char) (j : Bool) (s : EmuState) :
    (parse_gcode arc g j s).out = s.out := by
  simp only [parse_gcode]
  repeat' split
  all_goals rfl

theorem handle_command_mpos (arc : ArcFn) (cmd : List Char) (s : EmuState) :
    (handle_command arc cmd s).mpos = s.mpos := by
  simp only [handle_command]
  repeat' split
  all_goals first
    | rfl
    | apply parse_gcode_mpos

theorem handle_command_settings (arc : ArcFn) (cmd : List Char) (s : EmuState) :
    (handle_command arc cmd s).settings = s.settings := by
  simp only [handle_command]
  repeat' split
  all_goals first
    | rfl
    | apply parse_gcode_settings

theorem handle_command_settingsHome (arc : ArcFn) (cmd : List Char) (s : EmuState)
    (h : SettingsHome s) : SettingsHome (handle_command arc cmd s) := by
  obtain ⟨h1, h2⟩ := h
  constructor
  · rw [handle_command_settings]; exact h1
  · simp only [handle_command]
    repeat' split
    all_goals first
      | exact h2
      | (rw [parse_gcode_home_pos]; exact h2)
      | (show settingsTriple s.settings = _; rw [h1]; exact settingsTriple_init)

theorem rxByte_mpos (arc : ArcFn) (c : Char) (s : EmuState) :
    (rxByte arc c s).mpos = s.mpos := by
  simp only [rxByte]
  repeat' split
  all_goals first
    | rfl
    | apply handle_command_mpos

theorem rxByte_settingsHome (arc : ArcFn) (c : Char) (s : EmuState)
    (h : SettingsHome s) : SettingsHome (rxByte arc c s) := by
  simp only [rxByte]
  repeat' split
  all_goals first
    | exact h
    | exact handle_command_settingsHome arc _ s h

theorem rxByte_settings (arc : ArcFn) (c : Char) (s : EmuState) :
    (rxByte arc c s).settings = s.settings := by
  simp only [rxByte]
  repeat' split
  all_goals first
    | rfl
    | apply handle_command_settings

theorem inBounds_of_eq {s t : EmuState} (hm : t.mpos = s.mpos)
    (hs : t.settings = s.settings) (h : inBounds s) : inBounds t := by
  intro i
  rw [hm, hs]
  exact h i

theorem clampAxis_bounds (v m : ℚ) (hm : 0 ≤ m) :
    0 ≤ clampAxis v m ∧ clampAxis v m ≤ m := by
  unfold clampAxis
  exact ⟨le_max_left 0 _, max_le hm (min_le_right v m)⟩

theorem clampedIf_bounds (v m : ℚ) (hm : 0 ≤ m) :
    0 ≤ (if axisOut v m then clampAxis v m else v) ∧
      (if axisOut v m then clampAxis v m else v) ≤ m := by
  split
  · exact clampAxis_bounds v m hm
  · rename_i h
    simp only [axisOut, Bool.or_eq_true, decide_eq_true_eq] at h
    push_neg at h
    exact ⟨h.1, h.2⟩

theorem clampVec_bounds (v m : Vec3) (h0 : 0 ≤ m.x) (h1 : 0 ≤ m.y) (h2 : 0 ≤ m.z) :
    ∀ i : Fin 3, 0 ≤ (clampVec v m).get i ∧ (clampVec v m).get i ≤ m.get i := by
  intro i
  fin_cases i
  · exact clampedIf_bounds v.x m.x h0
  · exact clampedIf_bounds v.y m.y h1
  · exact clampedIf_bounds v.z m.z h2

theorem motion_tick_settings (s : EmuState) (dt sqrtD : ℚ) :
    (motion_tick s dt sqrtD).settings = s.settings := by
  simp only [motion_tick, popAndMaybeIdle]
  repeat' split
  all_goals rfl

theorem motion_tick_home_pos (s : EmuState) (dt sqrtD : ℚ) :
    (motion_tick s dt sqrtD).home_pos = s.home_pos := by
  simp only [motion_tick, popAndMaybeIdle]
  repeat' split
  all_goals rfl

/-- Every tick leaves mpos alone or writes the clamped next position. -/
theorem motion_tick_mpos_cases (s : EmuState) (dt sqrtD : ℚ) :
    (motion_tick s dt sqrtD).mpos = s.mpos ∨
    (motion_tick s dt sqrtD).mpos
      = clampVec (tickNext0 s dt sqrtD) (settingsTriple s.settings) := by
  simp only [motion_tick, popAndMaybeIdle]
  repeat' split
  all_goals first | exact Or.inl rfl | exact Or.inr rfl

theorem motion_tick_inBounds (s : EmuState) (dt sqrtD : ℚ)
    (hs : s.settings = initSettings) (hb : inBounds s) :
    inBounds (motion_tick s dt sqrtD) := by
  rcases motion_tick_mpos_cases s dt sqrtD with hm | hm
  · exact inBounds_of_eq hm (motion_tick_settings s dt sqrtD) hb
  · intro i
    rw [hm, motion_tick_settings, hs, settingsTriple_init]
    exact clampVec_bounds _ _ (by norm_num) (by norm_num) (by norm_num) i

theorem homeBackoffZ_inBounds (s : EmuState) (hsh : SettingsHome s) (hb : inBounds s) :
    inBounds (homeBackoffZ s) := by
  obtain ⟨h1, h2⟩ := hsh
  intro i
  fin_cases i
  · simpa [homeBackoffZ, Vec3.get] using hb 0
  · simpa [homeBackoffZ, Vec3.get] using hb 1
  · simp only [homeBackoffZ, Vec3.get, h1, h2, settingsTriple_init]
    norm_num

theorem homeBackoffXY_inBounds (s : EmuState) (hsh : SettingsHome s) (hb : inBounds s) :
    inBounds (homeBackoffXY s) := by
  obtain ⟨h1, h2⟩ := hsh
  intro i
  fin_cases i
  · simp only [homeBackoffXY, Vec3.get, h1, h2, settingsTriple_init]
    norm_num
  · simp only [homeBackoffXY, Vec3.get, h1, h2, settingsTriple_init]
    norm_num
  · simpa [homeBackoffXY, Vec3.get] using hb 2

theorem homeFinish_inBounds (s : EmuState) (hsh : SettingsHome s) :
    inBounds (homeFinish s) := by
  obtain ⟨h1, h2⟩ := hsh
  intro i
  fin_cases i <;>
    simp only [homeFinish, Vec3.get, h1, h2, settingsTriple_init] <;> norm_num

/-- The settings store never changes, the captured home position is its
max-travel triple, and mpos stays inside the travel box, at every
reachable state. -/
theorem reachable_core {arc : ArcFn} {s : EmuState} (h : Reachable arc s) :
    SettingsHome s ∧ inBounds s := by
  induction h with
  | refl =>
    refine ⟨⟨rfl, rfl⟩, ?_⟩
    intro i
    fin_cases i <;> (with_unfolding_all decide)
  | tail hab hstep ih =>
    obtain ⟨hsh, hb⟩ := ih
    obtain ⟨e, he⟩ := hstep
    cases e with
    | rx c =>
      exact ⟨rxByte_settingsHome _ c _ hsh,
        inBounds_of_eq (rxByte_mpos _ c _) (rxByte_settings _ c _) hb⟩
    | tick dt sqrtD =>
      exact ⟨⟨(motion_tick_settings _ dt sqrtD).trans hsh.1,
        (motion_tick_home_pos _ dt sqrtD).trans hsh.2⟩,
        motion_tick_inBounds _ dt sqrtD hsh.1 hb⟩
    | hSeekZ => exact ⟨⟨hsh.1, hsh.2⟩, inBounds_of_eq rfl rfl hb⟩
    | hBackZ => exact ⟨⟨hsh.1, hsh.2⟩, homeBackoffZ_inBounds _ hsh hb⟩
    | hSeekXY => exact ⟨⟨hsh.1, hsh.2⟩, inBounds_of_eq rfl rfl hb⟩
    | hBackXY => exact ⟨⟨hsh.1, hsh.2⟩, homeBackoffXY_inBounds _ hsh hb⟩
    | hFinish => exact ⟨⟨hsh.1, hsh.2⟩, homeFinish_inBounds _ hsh⟩

theorem headD_congr {α : Type} (l : List α) (d1 d2 : α) (h : l ≠ []) :
    l.headD d1 = l.headD d2 := by
  cases l
  · exact absurd rfl h
  · rfl

theorem handle_command_no_error1 (arc : ArcFn) (cmd : List Char) (s : EmuState)
    (h : Frame.error 1 ∈ (handle_command arc cmd s).out) : Frame.error 1 ∈ s.out := by
  simp only [handle_command] at h
  repeat' split at h
  all_goals (try rw [parse_gcode_out] at h)
  all_goals simpa using h

/-! ### Claim C1: state after a completed homing run -/

/-- C1, counterexample to the claim as stated. A complete homing run
(started by the dollar-H line inside c1Trace, stepped through all five
phases to the finish event, with no soft-reset byte anywhere in the
trace) ends with mpos at the settings triple, an empty queue, Idle state,
homing flag down — but wco, made non-zero by an earlier G92, is NOT
(0, 0, 0): the completion code zeroes the unused wpos field instead. -/
theorem C1_counterexample :
    validFromB arcStub init c1Trace = true ∧
    Ev.rx '\x18' ∉ c1Trace ∧
    Reachable arcStub (runEvs arcStub c1Trace init) ∧
    (runEvs arcStub c1Trace init).state = .Idle ∧
    (runEvs arcStub c1Trace init).homing = false ∧
    (runEvs arcStub c1Trace init).mpos = ⟨300, 180, 45⟩ ∧
    (runEvs arcStub c1Trace init).motion_queue = [] ∧
    (runEvs arcStub c1Trace init).wpos = Vec3.zero ∧
    (runEvs arcStub c1Trace init).wco = ⟨295, 0, 0⟩ ∧
    (runEvs arcStub c1Trace init).wco ≠ Vec3.zero := by
  refine ⟨by with_unfolding_all decide, by with_unfolding_all decide,
    reachable_runEvs c1Trace Relation.ReflTransGen.refl (by with_unfolding_all decide),
    ?_, ?_, ?_, ?_, ?_, ?_, ?_⟩ <;> with_unfolding_all decide

/-- C1, amended: when the homing completion step runs in a state whose
captured home position is the settings max-travel triple (which is what
_start_homing establishes for a sequence started by dollar-H or
dollar-HA), afterwards mpos equals that triple, the motion queue is
empty, the supervisor state is Idle and the homing flag is down; the
triple zeroed on completion is wpos, while wco keeps its prior value. -/
theorem C1_amended (s : EmuState) (h : s.home_pos = settingsTriple s.settings) :
    (homeFinish s).mpos = settingsTriple s.settings ∧
    (homeFinish s).wpos = Vec3.zero ∧
    (homeFinish s).motion_queue = [] ∧
    (homeFinish s).state = .Idle ∧
    (homeFinish s).homing = false ∧
    (homeFinish s).wco = s.wco :=
  ⟨h, rfl, rfl, rfl, rfl, rfl⟩

/-- C1, witness for the amended theorem at the state produced by the
homing command from the initial state. -/
theorem C1_witness :
    (startHoming init).home_pos = settingsTriple (startHoming init).settings ∧
    (homeFinish (startHoming init)).mpos = settingsTriple (startHoming init).settings ∧
    (homeFinish (startHoming init)).wpos = Vec3.zero ∧
    (homeFinish (startHoming init)).motion_queue = [] ∧
    (homeFinish (startHoming init)).state = .Idle ∧
    (homeFinish (startHoming init)).homing = false ∧
    (homeFinish (startHoming init)).wco = (startHoming init).wco :=
  ⟨rfl, C1_amended (startHoming init) rfl⟩

/-! ### Claim C2: the feed-hold byte -/

/-- C2, counterexample to the claim as stated. With a move in progress
(state Run after a queued block), the byte 0x21 does not move the
supervisor to Hold; it is appended to the line accumulator. -/
theorem C2_counterexample :
    (runBytes arcStub ("G0X1\n!".data) init).state = .Run ∧
    (runBytes arcStub ("G0X1\n!".data) init).state ≠ .Hold ∧
    (runBytes arcStub ("G0X1\n!".data) init).buffer = ['!'] := by
  refine ⟨?_, ?_, ?_⟩ <;> with_unfolding_all decide

/-- C2, amended: the serial loop has no case for the byte 0x21, so in
every state that byte is ordinary line content: the only effect is that
it is appended to the accumulator; no Hold event is posted and no other
field changes. -/
theorem C2_amended (arc : ArcFn) (s : EmuState) :
    rxByte arc '!' s = { s with buffer := s.buffer ++ ['!'] } := by
  simp only [rxByte]
  rw [if_neg (by decide), if_neg (by decide), if_neg (by decide), if_neg (by decide)]

/-! ### Claim C3: soft reset -/

/-- C3, counterexample to the claim as stated. Soft-reset received while
homing is active and the motion queue is non-empty: the state becomes
Alarm (and mpos is left in place), but the queue is NOT cleared and the
homing flag is NOT cancelled. -/
theorem C3_counterexample :
    (runBytes arcStub ("G0X1\r$H\r\x18".data) init).state = .Alarm ∧
    (runBytes arcStub ("G0X1\r$H\r\x18".data) init).homing = true ∧
    (runBytes arcStub ("G0X1\r$H\r\x18".data) init).motion_queue = [⟨1, 0, 0⟩] ∧
    (runBytes arcStub ("G0X1\r$H\r\x18".data) init).mpos = init.mpos := by
  refine ⟨?_, ?_, ?_, ?_⟩ <;> with_unfolding_all decide

/-- C3, amended: the soft-reset byte 0x18, in any state, sets the
supervisor state to Alarm and emits the welcome banner, and does nothing
else: mpos is left at its current value, but the motion queue and the
homing flag are also left untouched, so an in-progress homing sequence is
not cancelled. -/
theorem C3_amended (arc : ArcFn) (s : EmuState) :
    rxByte arc '\x18' s = { s with state := .Alarm, out := s.out ++ [Frame.banner] } := by
  simp only [rxByte]
  rw [if_neg (by decide), if_neg (by decide), if_pos (by decide)]

/-! ### Claim C10: the unlock command -/

/-- C10, confirmed: the dollar-X line is honoured in every supervisor
state (the Alarm gate whitelists it, every other state skips the gate):
it sets the state to Idle and answers ok, and changes nothing else — in
particular mpos, wco, the feed rate, the settings, the planner target and
the motion queue are all untouched, so a dollar-X during Run abandons a
non-empty queue while the state reports Idle. -/
theorem C10_unlock_any_state (arc : ArcFn) (s : EmuState) :
    handle_command arc ['$', 'X'] s = { s with state := .Idle, out := s.out ++ [Frame.ok] } := by
  have hup : pyUpper ['$', 'X'] = ['$', 'X'] := by decide
  simp only [handle_command, hup]
  rw [if_neg (fun hcon => absurd hcon.2 (by decide)), if_neg (by decide),
    if_pos (by decide), if_neg (by decide), if_neg (by decide), if_neg (by decide),
    if_pos (by decide)]

/-! ### Claim C4: soft-limit enforcement -/

/-- C4, confirmed. First conjunct: on a tick taken in an active state
while not homing, when the newly computed position (tickNext0) is out of
range on some axis (hitLimit), the tick writes the per-axis clamped
position to mpos, sets the planner target to that clamped position,
clears the motion queue, moves to Alarm and emits the ALARM:1 frame with
its message block. Second conjunct: at every reachable state and on every
axis, 0 <= mpos <= the max-travel setting of that axis (the settings
never change in this core, and every write to mpos is clamped or lands
inside the travel box). -/
theorem C4_soft_limits :
    (∀ (s : EmuState) (dt sqrtD : ℚ),
      s.state = .Run ∨ s.state = .Home → s.homing = false → sqrtD > 1/1000 →
      hitLimit (tickNext0 s dt sqrtD) (settingsTriple s.settings) = true →
      motion_tick s dt sqrtD =
        { s with
            mpos := clampVec (tickNext0 s dt sqrtD) (settingsTriple s.settings),
            target_mpos := clampVec (tickNext0 s dt sqrtD) (settingsTriple s.settings),
            motion_queue := [],
            state := .Alarm,
            out := s.out ++ [Frame.alarm1] }) ∧
    (∀ (arc : ArcFn) (s : EmuState), Reachable arc s →
      ∀ i : Fin 3, 0 ≤ s.mpos.get i ∧ s.mpos.get i ≤ (settingsTriple s.settings).get i) := by
  constructor
  · intro s dt sqrtD hact hhom hd hhit
    simp only [motion_tick, if_pos hact, if_pos hd, if_pos (And.intro hhit hhom)]
  · intro arc s h i
    exact (reachable_core h).2 i

/-- C4, witness: a Run state one tick away from x = 500 with max travel
300 alarms with mpos clamped to x = 300, and the invariant instance at
the initial state. -/
theorem C4_witness :
    (c4State.state = .Run ∨ c4State.state = .Home) ∧
    c4State.homing = false ∧
    hitLimit (tickNext0 c4State 60 500) (settingsTriple c4State.settings) = true ∧
    motion_tick c4State 60 500 =
      { c4State with
          mpos := clampVec (tickNext0 c4State 60 500) (settingsTriple c4State.settings),
          target_mpos := clampVec (tickNext0 c4State 60 500) (settingsTriple c4State.settings),
          motion_queue := [],
          state := .Alarm,
          out := c4State.out ++ [Frame.alarm1] } ∧
    (motion_tick c4State 60 500).mpos = ⟨300, 0, 0⟩ ∧
    (motion_tick c4State 60 500).state = .Alarm ∧
    (0 ≤ init.mpos.get 0 ∧ init.mpos.get 0 ≤ (settingsTriple init.settings).get 0) :=
  ⟨Or.inl rfl, rfl, by with_unfolding_all decide,
    C4_soft_limits.1 c4State 60 500 (Or.inl rfl) rfl (by norm_num)
      (by with_unfolding_all decide),
    by with_unfolding_all decide, by with_unfolding_all decide,
    C4_soft_limits.2 arcStub init Relation.ReflTransGen.refl 0⟩

/-! ### Claim C5: the Idle invariant -/

/-- C5, counterexample to the claim as stated. A queued move followed by
the unlock line: the state reports Idle while the motion queue still
holds the waypoint and mpos differs from the planner target. -/
theorem C5_counterexample :
    Reachable arcStub (runBytes arcStub "G0X1\r$X\r".data init) ∧
    (runBytes arcStub "G0X1\r$X\r".data init).state = .Idle ∧
    (runBytes arcStub "G0X1\r$X\r".data init).motion_queue = [⟨1, 0, 0⟩] ∧
    (runBytes arcStub "G0X1\r$X\r".data init).mpos = ⟨0, 0, 0⟩ ∧
    (runBytes arcStub "G0X1\r$X\r".data init).target_mpos = ⟨1, 0, 0⟩ := by
  refine ⟨reachable_runBytes _ Relation.ReflTransGen.refl, ?_, ?_, ?_, ?_⟩ <;>
    with_unfolding_all decide

/-- C5, amended: the executor itself keeps the invariant only in the
form: whenever a tick moves the supervisor from a non-Idle state to Idle,
the motion queue is empty after that tick. Idle states reached otherwise
(the unlock line) can carry a non-empty queue and a planner target away
from mpos. -/
theorem C5_amended (s : EmuState) (dt sqrtD : ℚ) (hne : s.state ≠ .Idle)
    (hidle : (motion_tick s dt sqrtD).state = .Idle) :
    (motion_tick s dt sqrtD).motion_queue = [] := by
  by_cases hact : s.state = .Run ∨ s.state = .Home
  case neg =>
    simp only [motion_tick, if_neg hact] at hidle
    exact absurd hidle hne
  by_cases hd : sqrtD > 1/1000
  case neg =>
    simp only [motion_tick, if_pos hact, if_neg hd, popAndMaybeIdle] at hidle ⊢
    by_cases hq : s.homing = false ∧
        (if s.state = .Run ∧ s.motion_queue ≠ [] then s.motion_queue.tail
         else s.motion_queue) = []
    · exact hq.2
    · rw [if_neg hq] at hidle
      exact absurd hidle hne
  by_cases hhit : hitLimit (tickNext0 s dt sqrtD) (settingsTriple s.settings) = true ∧
      s.homing = false
  · simp only [motion_tick, if_pos hact, if_pos hd, if_pos hhit] at hidle
    exact GState.noConfusion hidle
  · by_cases hstep : tickStep s dt ≥ sqrtD
    · simp only [motion_tick, if_pos hact, if_pos hd, if_neg hhit, if_pos hstep,
        popAndMaybeIdle] at hidle ⊢
      by_cases hq : s.homing = false ∧
          (if s.state = .Run ∧ s.motion_queue ≠ [] then s.motion_queue.tail
           else s.motion_queue) = []
      · exact hq.2
      · rw [if_neg hq] at hidle
        exact absurd hidle hne
    · simp only [motion_tick, if_pos hact, if_pos hd, if_neg hhit, if_neg hstep] at hidle
      exact absurd hidle hne

/-- C5, witness: a Run state whose single waypoint is reached in one tick
ends Idle with an empty queue. -/
theorem C5_witness :
    c5State.state ≠ .Idle ∧ (motion_tick c5State 60 1).state = .Idle ∧
    (motion_tick c5State 60 1).motion_queue = [] :=
  ⟨by with_unfolding_all decide, by with_unfolding_all decide,
    C5_amended c5State 60 1 (by with_unfolding_all decide) (by with_unfolding_all decide)⟩

/-! ### Claim C6: the planner target after a block -/

/-- C6, counterexample to the claim as stated. Two absolute moves sent
back to back (no tick in between, so the first is still queued): after
the second block is interpreted, the planner target is the queue head
(10, 0, 0), not the endpoint (20, 0, 0) of the second block. -/
theorem C6_counterexample :
    (runBytes arcStub "G0X10\rG0X20\r".data init).motion_queue
      = [⟨10, 0, 0⟩, ⟨20, 0, 0⟩] ∧
    (runBytes arcStub "G0X10\rG0X20\r".data init).target_mpos = ⟨10, 0, 0⟩ ∧
    (runBytes arcStub "G0X10\rG0X20\r".data init).target_mpos ≠ ⟨20, 0, 0⟩ := by
  refine ⟨?_, ?_, ?_⟩ <;> with_unfolding_all decide

/-- C6, amended: after any motion block (axis word present, not a
G10/G92 block) is interpreted, the motion queue is non-empty and the
planner target equals the HEAD of the motion queue — the first yet to be
executed waypoint — not in general the endpoint of the block; the state
becomes Run. For arc modes this is stated for any expansion list the arc
expander produces, under the source-true hypothesis that the list is
non-empty. A subsequent relative move is therefore measured from the
queue head. -/
theorem C6_amended (arc : ArcFn) (hne : ∀ a b c d, arc a b c d ≠ [])
    (g : List Char) (j : Bool) (s : EmuState)
    (h1 : (blockTokens g).any isOffsetTok = false)
    (h2 : (blockTokens g).any isAxisTok = true) :
    (parse_gcode arc g j s).motion_queue ≠ [] ∧
    (parse_gcode arc g j s).target_mpos
      = (parse_gcode arc g j s).motion_queue.headD Vec3.zero ∧
    (parse_gcode arc g j s).state = .Run := by
  have hoff : ¬((blockTokens g).any isOffsetTok = true) := by simp [h1]
  simp only [parse_gcode, if_neg hoff, if_pos h2]
  refine ⟨?_, headD_congr _ _ _ ?_, trivial⟩ <;>
    (intro hy
     rw [List.append_eq_nil] at hy
     rcases hy with ⟨-, hseg⟩
     revert hseg
     split
     · exact fun hseg => hne _ _ _ _ hseg
     · exact fun hseg => List.noConfusion hseg)

/-- C6, witness: a single absolute move from the initial state. -/
theorem C6_witness :
    (blockTokens "G0X10".data).any isOffsetTok = false ∧
    (blockTokens "G0X10".data).any isAxisTok = true ∧
    (parse_gcode arcStub "G0X10".data false init).motion_queue ≠ [] ∧
    (parse_gcode arcStub "G0X10".data false init).target_mpos
      = (parse_gcode arcStub "G0X10".data false init).motion_queue.headD Vec3.zero ∧
    (parse_gcode arcStub "G0X10".data false init).state = .Run :=
  ⟨by with_unfolding_all decide, by with_unfolding_all decide,
    C6_amended arcStub (fun _ b _ _ => List.cons_ne_nil b []) "G0X10".data false init
      (by with_unfolding_all decide) (by with_unfolding_all decide)⟩

/-! ### Claim C7: malformed tokens and parser errors -/

/-- C7, counterexample to the claim as stated. A line with a malformed
token (the X word has no number) is answered with ok, not with error:1:
the tokeniser silently skips what the regex does not match. -/
theorem C7_counterexample :
    (runBytes arcStub "G1X%&\r".data init).out = [Frame.ok] ∧
    Frame.error 1 ∉ (runBytes arcStub "G1X%&\r".data init).out := by
  refine ⟨?_, ?_⟩ <;> with_unfolding_all decide

/-- C7, amended: malformed tokens are ignored, not reported: outside
Alarm, every non-dollar line is answered with exactly one ok appended to
the output (first conjunct), and no command whatsoever ever emits an
error:1 frame (second conjunct). The exception handler of the serial
loop only logs: it sends no response at all, so the process survives but
no error:1 is produced there either. -/
theorem C7_amended :
    (∀ (arc : ArcFn) (line : List Char) (s : EmuState),
      s.state ≠ .Alarm → (pyUpper line).take 1 ≠ ['$'] →
      (handle_command arc line s).out = s.out ++ [Frame.ok]) ∧
    (∀ (arc : ArcFn) (line : List Char) (s : EmuState),
      Frame.error 1 ∈ (handle_command arc line s).out → Frame.error 1 ∈ s.out) := by
  constructor
  · intro arc line s h1 h2
    simp only [handle_command]
    rw [if_neg (fun hc => h1 hc.1), if_neg (fun he => h2 (by rw [he]; rfl)),
      if_neg h2, parse_gcode_out]
  · exact handle_command_no_error1

/-- C7, witness: the malformed line at the initial state. -/
theorem C7_witness :
    init.state ≠ .Alarm ∧ (pyUpper "G1X%&".data).take 1 ≠ ['$'] ∧
    (handle_command arcStub "G1X%&".data init).out = init.out ++ [Frame.ok] :=
  ⟨by decide, by decide, C7_amended.1 arcStub "G1X%&".data init (by decide) (by decide)⟩

/-! ### Claim C8: jog lines -/

/-- C8, counterexample to the claim as stated. The jog line with G91 and
a motion word leaves the persistent distance mode absolute, as claimed —
but it transitions the supervisor to Run, not to Jog: the source never
assigns the Jog state. -/
theorem C8_counterexample :
    (runBytes arcStub "$J=G91X1\r".data init).state = .Run ∧
    (runBytes arcStub "$J=G91X1\r".data init).state ≠ .Jog ∧
    (runBytes arcStub "$J=G91X1\r".data init).is_relative = false ∧
    (runBytes arcStub "$J=G91X1\r".data init).motion_queue = [⟨1, 0, 0⟩] := by
  refine ⟨?_, ?_, ?_, ?_⟩ <;> with_unfolding_all decide

/-- C8, amended: a jog block (is_jog set, as _handle_command does for
dollar-J lines, passing the text after the equals sign) never mutates the
persistent distance mode, even when it contains G90 or G91; and when it
commands motion (axis word present, not a G10/G92 block) it transitions
the supervisor to Run — the Jog state does not exist in this core. -/
theorem C8_amended :
    (∀ (arc : ArcFn) (g : List Char) (s : EmuState),
      (parse_gcode arc g true s).is_relative = s.is_relative) ∧
    (∀ (arc : ArcFn) (g : List Char) (s : EmuState),
      (blockTokens g).any isOffsetTok = false →
      (blockTokens g).any isAxisTok = true →
      (parse_gcode arc g true s).state = .Run) := by
  constructor
  · intro arc g s
    simp only [parse_gcode, eq_self_iff_true, if_true]
    repeat' split
    all_goals rfl
  · intro arc g s h1 h2
    have hoff : ¬((blockTokens g).any isOffsetTok = true) := by simp [h1]
    simp only [parse_gcode, if_neg hoff, if_pos h2]

/-- C8, witness: the jog fragment G91X1 at the initial state. -/
theorem C8_witness :
    (parse_gcode arcStub "G91X1".data true init).is_relative = init.is_relative ∧
    (blockTokens "G91X1".data).any isOffsetTok = false ∧
    (blockTokens "G91X1".data).any isAxisTok = true ∧
    (parse_gcode arcStub "G91X1".data true init).state = .Run :=
  ⟨C8_amended.1 arcStub "G91X1".data init, by with_unfolding_all decide,
    by with_unfolding_all decide,
    C8_amended.2 arcStub "G91X1".data init (by with_unfolding_all decide)
      (by with_unfolding_all decide)⟩

/-! ### Claim C9: settings assignments -/

/-- C9, counterexample to the claim as stated. The assignment line
overwriting the X max travel is answered ok but the settings store is
unchanged: the 130 entry still reads 300 and the homing/limit triple is
still (300, 180, 45) — the comment in the source calls this branch fake
setting success. -/
theorem C9_counterexample :
    (runBytes arcStub "$130=10\r".data init).out = [Frame.ok] ∧
    (runBytes arcStub "$130=10\r".data init).settings = initSettings ∧
    lookupSetting (runBytes arcStub "$130=10\r".data init).settings "$130" = 300 ∧
    settingsTriple (runBytes arcStub "$130=10\r".data init).settings = ⟨300, 180, 45⟩ := by
  refine ⟨?_, ?_, ?_, ?_⟩ <;> with_unfolding_all decide

/-- C9, amended: no command ever mutates the settings store (first
conjunct); a well-formed dollar-n-equals-v line, which matches none of
the recognised dollar commands, falls through to the fake-success branch
outside Alarm: it is answered with a single ok and the whole state except
the output is untouched, so the assignment has no semantic effect at all,
for n = 130, 131, 132 as for every other n (second conjunct). -/
theorem C9_amended :
    (∀ (arc : ArcFn) (cmd : List Char) (s : EmuState),
      (handle_command arc cmd s).settings = s.settings) ∧
    (∀ (arc : ArcFn) (cmd : List Char) (s : EmuState),
      s.state ≠ .Alarm →
      (pyUpper cmd).take 1 = ['$'] →
      pyUpper cmd ≠ ['$', '$'] →
      pyUpper cmd ≠ ['$', 'H'] →
      pyUpper cmd ≠ ['$', 'H', 'A'] →
      (pyUpper cmd).take 3 ≠ ['$', 'J', '='] →
      pyUpper cmd ≠ ['$', 'I'] →
      pyUpper cmd ≠ ['$', 'X'] →
      pyUpper cmd ≠ ['$', 'G'] →
      handle_command arc cmd s = { s with out := s.out ++ [Frame.ok] }) := by
  constructor
  · exact handle_command_settings
  · intro arc cmd s h1 h2 h3 h4 h5 h6 h7 h8 h9
    simp only [handle_command]
    rw [if_neg (fun hc => h1 hc.1), if_neg h3, if_pos h2,
      if_neg (fun hor => hor.elim h4 h5), if_neg h6, if_neg h7, if_neg h8, if_neg h9]

/-- C9, witness: the assignment line at the initial state. -/
theorem C9_witness :
    (pyUpper "$130=10".data).take 1 = ['$'] ∧
    handle_command arcStub "$130=10".data init
      = { init with out := init.out ++ [Frame.ok] } :=
  ⟨by decide,
    C9_amended.2 arcStub "$130=10".data init (by decide) (by decide) (by decide)
      (by decide) (by decide) (by decide) (by decide) (by decide) (by decide)⟩

end GrblEmu
